import Mathlib

/-!
Verification development for the TumaTaxi authentication backend
(`backend/api/auth.py`, `backend/core/security.py`, `backend/database/models.py`,
`backend/middleware/security.py`).

The Python source is shallowly embedded: each relevant function is translated
into an executable Lean definition over explicit record states.  Wall-clock
time is an integer number of seconds passed explicitly (`now : Int`);
database tables are lists of records; SQLAlchemy `update`/attribute mutation
becomes pure list mapping keyed by the mutated row's primary key.
External library primitives (python-jose, Fernet, base64, HMAC-SHA256) are
modelled from their documented contracts, as noted at each definition.
-/

/- ==================== Generic helpers ==================== -/

/-- Python `str.split(sep)` on character lists (no collapsing of empty
fields; `"".split(sep) == [""]`). -/
def splitOnChar (sep : Char) : List Char → List (List Char)
  | [] => [[]]
  | c :: cs =>
    if c = sep then [] :: splitOnChar sep cs
    else
      match splitOnChar sep cs with
      | [] => [[c]]
      | h :: t => (c :: h) :: t

theorem splitOnChar_ne_nil (sep : Char) (l : List Char) : splitOnChar sep l ≠ [] := by
  induction l with
  | nil => simp [splitOnChar]
  | cons c cs ih =>
    simp only [splitOnChar]
    split
    · simp
    · cases hs : splitOnChar sep cs with
      | nil => simp
      | cons h t => simp

theorem splitOnChar_eq_single (sep : Char) :
    ∀ (l a : List Char), splitOnChar sep l = [a] → l = a ∧ sep ∉ a := by
  intro l
  induction l with
  | nil =>
    intro a h
    simp only [splitOnChar] at h
    injection h with h1 _
    subst h1
    exact ⟨rfl, by simp⟩
  | cons c cs ih =>
    intro a h
    simp only [splitOnChar] at h
    by_cases hc : c = sep
    · rw [if_pos hc] at h
      injection h with _ h2
      exact absurd h2 (splitOnChar_ne_nil sep cs)
    · rw [if_neg hc] at h
      cases hs : splitOnChar sep cs with
      | nil => exact absurd hs (splitOnChar_ne_nil sep cs)
      | cons hh tt =>
        rw [hs] at h
        injection h with h1 h2
        subst h2
        obtain ⟨hcs, hmem⟩ := ih hh hs
        refine ⟨by rw [← h1, hcs], ?_⟩
        rw [← h1]
        intro hm
        rcases List.mem_cons.mp hm with he | hm2
        · exact hc he.symm
        · exact hmem hm2

theorem splitOnChar_eq_pair (sep : Char) :
    ∀ (l a b : List Char), splitOnChar sep l = [a, b] →
      l = a ++ sep :: b ∧ sep ∉ a ∧ sep ∉ b := by
  intro l
  induction l with
  | nil =>
    intro a b h
    simp only [splitOnChar] at h
    injection h with _ h2
    simp at h2
  | cons c cs ih =>
    intro a b h
    simp only [splitOnChar] at h
    by_cases hc : c = sep
    · rw [if_pos hc] at h
      injection h with h1 h2
      obtain ⟨hcs, hmem⟩ := splitOnChar_eq_single sep cs b h2
      subst hcs
      refine ⟨?_, ?_, hmem⟩
      · rw [← h1, hc]; rfl
      · rw [← h1]; simp
    · rw [if_neg hc] at h
      cases hs : splitOnChar sep cs with
      | nil => exact absurd hs (splitOnChar_ne_nil sep cs)
      | cons hh tt =>
        rw [hs] at h
        injection h with h1 h2
        subst h2
        obtain ⟨hcs, hna, hnb⟩ := ih hh b hs
        refine ⟨?_, ?_, hnb⟩
        · rw [← h1, hcs]; rfl
        · rw [← h1]
          intro hm
          rcases List.mem_cons.mp hm with he | hm2
          · exact hc he.symm
          · exact hna hm2

theorem splitOnChar_of_not_mem (sep : Char) :
    ∀ (l : List Char), sep ∉ l → splitOnChar sep l = [l] := by
  intro l
  induction l with
  | nil => intro _; simp [splitOnChar]
  | cons c cs ih =>
    intro h
    simp at h
    simp only [splitOnChar]
    rw [if_neg (fun he => h.1 he.symm), ih h.2]

theorem splitOnChar_append_of_not_mem (sep : Char) :
    ∀ (a : List Char), sep ∉ a → ∀ (ys hh : List Char) (tt : List (List Char)),
      splitOnChar sep ys = hh :: tt →
      splitOnChar sep (a ++ ys) = (a ++ hh) :: tt := by
  intro a
  induction a with
  | nil => intro _ ys hh tt h; simpa using h
  | cons c a' ih =>
    intro hmem ys hh tt h
    simp at hmem
    have hrec := ih hmem.2 ys hh tt h
    simp only [List.cons_append, splitOnChar, List.append_eq]
    rw [if_neg (fun he => hmem.1 he.symm), hrec]

/-- `splitOnChar` at a unique separator position recovers the two parts. -/
theorem splitOnChar_parts (sep : Char) (a b : List Char)
    (ha : sep ∉ a) (hb : sep ∉ b) :
    splitOnChar sep (a ++ sep :: b) = [a, b] := by
  have hsep : splitOnChar sep (sep :: b) = [] :: [b] := by
    simp [splitOnChar, splitOnChar_of_not_mem sep b hb]
  have := splitOnChar_append_of_not_mem sep a ha (sep :: b) [] [b] hsep
  simpa using this

/-- Decimal rendering of naturals, accumulator form (`str(int)` in Python). -/
def natToCharsAux (n : Nat) (acc : List Char) : List Char :=
  if h : n = 0 then acc
  else natToCharsAux (n / 10) (Char.ofNat (48 + n % 10) :: acc)
termination_by n
decreasing_by exact Nat.div_lt_self (Nat.pos_of_ne_zero h) (by decide)

/-- Python `str(n)` for a natural number `n`: canonical decimal digits. -/
def natToChars (n : Nat) : List Char :=
  if n = 0 then ['0'] else natToCharsAux n []

/-- Value of a decimal digit character, if it is one. -/
def digitVal? (c : Char) : Option Nat :=
  if 48 ≤ c.toNat ∧ c.toNat ≤ 57 then some (c.toNat - 48) else none

/-- Accumulating decimal parse. -/
def charsToNatAux : Nat → List Char → Option Nat
  | acc, [] => some acc
  | acc, c :: cs =>
    match digitVal? c with
    | some d => charsToNatAux (acc * 10 + d) cs
    | none => none

/-- Python `int(s)` restricted to the canonical all-digit strings that the
model ever produces (`str(n)`); any non-digit character fails the parse,
matching the `ValueError` branch of `int`. -/
def charsToNat? : List Char → Option Nat
  | [] => none
  | c :: cs => charsToNatAux 0 (c :: cs)

theorem natToCharsAux_zero (acc : List Char) : natToCharsAux 0 acc = acc := by
  simp [natToCharsAux]

theorem natToCharsAux_step (n : Nat) (h : n ≠ 0) (acc : List Char) :
    natToCharsAux n acc = natToCharsAux (n / 10) (Char.ofNat (48 + n % 10) :: acc) := by
  rw [natToCharsAux]
  exact dif_neg h

theorem natToCharsAux_append (n : Nat) :
    ∀ acc, natToCharsAux n acc = natToCharsAux n [] ++ acc := by
  induction n using Nat.strong_induction_on with
  | _ n ih =>
    intro acc
    by_cases h : n = 0
    · subst h; simp [natToCharsAux_zero]
    · have hlt : n / 10 < n := Nat.div_lt_self (Nat.pos_of_ne_zero h) (by decide)
      rw [natToCharsAux_step n h acc, natToCharsAux_step n h []]
      rw [ih (n / 10) hlt (Char.ofNat (48 + n % 10) :: acc),
        ih (n / 10) hlt (Char.ofNat (48 + n % 10) :: [])]
      simp

theorem charsToNatAux_append (xs : List Char) :
    ∀ (ys : List Char) (acc : Nat),
      charsToNatAux acc (xs ++ ys) =
        match charsToNatAux acc xs with
        | some v => charsToNatAux v ys
        | none => none := by
  induction xs with
  | nil => intro ys acc; simp [charsToNatAux]
  | cons c cs ih =>
    intro ys acc
    simp only [List.cons_append, charsToNatAux]
    cases digitVal? c with
    | some d => exact ih ys (acc * 10 + d)
    | none => rfl

theorem digitVal?_digitChar (d : Nat) (hd : d < 10) :
    digitVal? (Char.ofNat (48 + d)) = some d := by
  interval_cases d <;> decide

theorem parse_natToCharsAux (n : Nat) :
    ∀ acc, charsToNatAux acc (natToCharsAux n []) =
      some (acc * 10 ^ (natToCharsAux n []).length + n) := by
  induction n using Nat.strong_induction_on with
  | _ n ih =>
    intro acc
    by_cases h : n = 0
    · subst h; simp [natToCharsAux_zero, charsToNatAux]
    · have hlt : n / 10 < n := Nat.div_lt_self (Nat.pos_of_ne_zero h) (by decide)
      rw [natToCharsAux_step n h [], natToCharsAux_append (n / 10), charsToNatAux_append]
      rw [ih (n / 10) hlt acc]
      simp only [charsToNatAux, digitVal?_digitChar (n % 10) (Nat.mod_lt n (by decide)),
        List.length_append, List.length_cons, List.length_nil]
      congr 1
      have hsplit : 10 * (n / 10) + n % 10 = n := Nat.div_add_mod n 10
      ring_nf
      omega

theorem charsToNat?_natToChars (n : Nat) : charsToNat? (natToChars n) = some n := by
  by_cases h : n = 0
  · simp [natToChars, h, charsToNat?, charsToNatAux, digitVal?]
  · rw [natToChars, if_neg h]
    have hne : natToCharsAux n [] ≠ [] := by
      rw [natToCharsAux_step n h [], natToCharsAux_append (n / 10)]
      simp
    cases hs : natToCharsAux n [] with
    | nil => exact absurd hs hne
    | cons c cs =>
      rw [charsToNat?, ← hs]
      have := parse_natToCharsAux n 0
      simpa using this

theorem natToCharsAux_digits (n : Nat) :
    ∀ acc c, c ∈ natToCharsAux n acc → c ∈ acc ∨ ∃ d, d < 10 ∧ c = Char.ofNat (48 + d) := by
  induction n using Nat.strong_induction_on with
  | _ n ih =>
    intro acc c hc
    by_cases h : n = 0
    · rw [h, natToCharsAux_zero] at hc; exact Or.inl hc
    · rw [natToCharsAux_step n h acc] at hc
      rcases ih (n / 10) (Nat.div_lt_self (Nat.pos_of_ne_zero h) (by decide)) _ c hc with
        hacc | hdig
      · rcases List.mem_cons.mp hacc with hc0 | hacc'
        · exact Or.inr ⟨n % 10, Nat.mod_lt n (by decide), hc0⟩
        · exact Or.inl hacc'
      · exact Or.inr hdig

/-- The decimal rendering never contains a colon. -/
theorem colon_not_mem_natToChars (n : Nat) : ':' ∉ natToChars n := by
  by_cases h : n = 0
  · simp [natToChars, h]
  · rw [natToChars, if_neg h]
    intro hc
    rcases natToCharsAux_digits n [] ':' hc with habs | ⟨d, hd, he⟩
    · simp at habs
    · interval_cases d <;> simp_all

/-- Python `min(seed :: rest, key)`: keeps the first element attaining the
minimum key (strict `<` comparison while folding). -/
def pyMinBy (key : α → Int) : α → List α → α
  | best, [] => best
  | best, r :: rest => pyMinBy key (if key r < key best then r else best) rest

theorem pyMinBy_mem (key : α → Int) :
    ∀ (l : List α) (b : α), pyMinBy key b l ∈ b :: l := by
  intro l
  induction l with
  | nil => intro b; simp [pyMinBy]
  | cons r rest ih =>
    intro b
    simp only [pyMinBy]
    by_cases h : key r < key b
    · rw [if_pos h]
      rcases List.mem_cons.mp (ih r) with h1 | h1
      · simp [h1]
      · simp [h1]
    · rw [if_neg h]
      rcases List.mem_cons.mp (ih b) with h1 | h1
      · simp [h1]
      · simp [h1]

theorem pyMinBy_le (key : α → Int) :
    ∀ (l : List α) (b : α), ∀ x ∈ b :: l, key (pyMinBy key b l) ≤ key x := by
  intro l
  induction l with
  | nil =>
    intro b x hx
    rcases List.mem_cons.mp hx with h1 | h1
    · rw [h1]; simp [pyMinBy]
    · simp at h1
  | cons r rest ih =>
    intro b x hx
    simp only [pyMinBy]
    rcases List.mem_cons.mp hx with h1 | h1
    · rw [h1]
      by_cases h : key r < key b
      · rw [if_pos h]
        exact le_trans (ih r r (by simp)) (le_of_lt h)
      · rw [if_neg h]
        exact ih b b (by simp)
    · rcases List.mem_cons.mp h1 with h2 | h2
      · rw [h2]
        by_cases h : key r < key b
        · rw [if_pos h]
          exact ih r r (by simp)
        · rw [if_neg h]
          exact le_trans (ih b b (by simp)) (not_lt.mp h)
      · by_cases h : key r < key b
        · rw [if_pos h]
          exact ih r x (by simp [h2])
        · rw [if_neg h]
          exact ih b x (by simp [h2])

/- ==================== RBAC (backend/middleware/security.py) ==================== -/

/-- `RBACMiddleware.role_permissions` (middleware/security.py, constructor):
the static role → permission-list mapping; absent roles give `[]`
(the `.get(user_role, [])` default in `_has_permission`). -/
def role_permissions (role : String) : List String :=
  if role = "super_admin" then ["*"]
  else if role = "admin" then
    ["users:read", "users:write", "users:delete",
     "drivers:read", "drivers:write", "drivers:approve",
     "trips:read", "trips:write", "trips:cancel",
     "reports:read", "audit:read"]
  else if role = "driver" then
    ["profile:read", "profile:write",
     "trips:read", "trips:accept", "trips:complete",
     "earnings:read"]
  else if role = "passenger" then
    ["profile:read", "profile:write",
     "trips:create", "trips:read", "trips:cancel",
     "payments:read", "payments:write"]
  else if role = "support" then
    ["users:read", "trips:read", "trips:write",
     "support_tickets:read", "support_tickets:write"]
  else if role = "moderator" then
    ["users:read", "drivers:read", "trips:read",
     "reports:read", "content:moderate"]
  else []

/-- Core of `RBACMiddleware._has_permission` after the `role_permissions.get`
lookup: `*` membership, exact membership, then `resource:*` wildcard when the
required permission splits into exactly two `:`-separated parts. -/
def has_permission_core (rolePerms : List String) (required : String) : Bool :=
  if rolePerms.contains "*" then true
  else if rolePerms.contains required then true
  else
    match splitOnChar ':' required.data with
    | [res, _act] => rolePerms.contains (String.mk (res ++ [':', '*']))
    | _ => false

/-- `RBACMiddleware._has_permission`. -/
def has_permission (role required : String) : Bool :=
  has_permission_core (role_permissions role) required

/-- The authorization decision of `RBACMiddleware.dispatch` lines 463-475:
grant when no permission is required for the endpoint, otherwise defer to
`_has_permission`. -/
def rbac_authorize (role : String) (required : Option String) : Bool :=
  match required with
  | none => true
  | some p => has_permission role p

/-- Characterization of `_has_permission`'s body as a predicate on the
permission list: star, exact match, or `resource:*` wildcard for a required
permission of the exact shape `resource:action`. -/
theorem has_permission_core_iff (perms : List String) (p : String) :
    has_permission_core perms p = true ↔
      ("*" ∈ perms ∨ p ∈ perms ∨
        ∃ res act : List Char, p.data = res ++ ':' :: act ∧ ':' ∉ res ∧ ':' ∉ act ∧
          String.mk (res ++ [':', '*']) ∈ perms) := by
  unfold has_permission_core
  by_cases h1 : perms.contains "*" = true
  · rw [if_pos h1]
    simp only [true_iff]
    exact Or.inl (List.elem_iff.mp h1)
  · rw [if_neg h1]
    by_cases h2 : perms.contains p = true
    · rw [if_pos h2]
      simp only [true_iff]
      exact Or.inr (Or.inl (List.elem_iff.mp h2))
    · rw [if_neg h2]
      have hstar : "*" ∉ perms := fun hm => h1 (List.elem_iff.mpr hm)
      have hexact : p ∉ perms := fun hm => h2 (List.elem_iff.mpr hm)
      constructor
      · intro hmatch
        cases hsplit : splitOnChar ':' p.data with
        | nil => rw [hsplit] at hmatch; simp at hmatch
        | cons r1 rest =>
          cases rest with
          | nil => rw [hsplit] at hmatch; simp at hmatch
          | cons r2 rest2 =>
            cases rest2 with
            | nil =>
              rw [hsplit] at hmatch
              obtain ⟨hdecomp, hna, hnb⟩ := splitOnChar_eq_pair ':' p.data r1 r2 hsplit
              exact Or.inr (Or.inr ⟨r1, r2, hdecomp, hna, hnb, List.elem_iff.mp hmatch⟩)
            | cons r3 rest3 => rw [hsplit] at hmatch; simp at hmatch
      · intro hdisj
        rcases hdisj with hm | hm | ⟨res, act, hdecomp, hna, hnb, hmem⟩
        · exact absurd hm hstar
        · exact absurd hm hexact
        · have hsplit : splitOnChar ':' p.data = [res, act] := by
            rw [hdecomp]; exact splitOnChar_parts ':' res act hna hnb
          rw [hsplit]
          exact List.elem_iff.mpr hmem

theorem has_permission_core_nil (p : String) : has_permission_core [] p = false := by
  rcases hs : splitOnChar ':' p.data with _ | ⟨r1, _ | ⟨r2, _ | _⟩⟩ <;>
    simp [has_permission_core, hs]

/-- C7: RBAC authorization semantics — a role is granted access iff no
permission is required, or its permission set holds `*`, the exact required
permission, or the `resource:*` wildcard when the required permission has the
two-part `resource:action` shape; any other case (including a role absent
from the mapping, whose permission list is empty) is denied.  In particular
a role holding `users:*` is authorized for `users:read`, `users:write` and
`users:delete` but not for `trips:read`. -/
theorem rbac_authorization_semantics :
    (∀ (role : String) (req : Option String),
      rbac_authorize role req = true ↔
        (req = none ∨ ∃ p, req = some p ∧
          ("*" ∈ role_permissions role ∨ p ∈ role_permissions role ∨
            ∃ res act : List Char, p.data = res ++ ':' :: act ∧ ':' ∉ res ∧ ':' ∉ act ∧
              String.mk (res ++ [':', '*']) ∈ role_permissions role))) ∧
    has_permission_core ["users:*"] "users:read" = true ∧
    has_permission_core ["users:*"] "users:write" = true ∧
    has_permission_core ["users:*"] "users:delete" = true ∧
    has_permission_core ["users:*"] "trips:read" = false ∧
    (∀ p, has_permission "guest" p = false) := by
  refine ⟨?_, by decide, by decide, by decide, by decide, ?_⟩
  · intro role req
    cases req with
    | none => simp [rbac_authorize]
    | some p =>
      simp only [rbac_authorize, has_permission]
      rw [has_permission_core_iff]
      simp
  · intro p
    rw [has_permission, show role_permissions "guest" = [] by decide]
    exact has_permission_core_nil p

/- ==================== Crypto (backend/core/security.py) ==================== -/

/-- The single exception kind raised by the security core
(`SecurityException` in core/security.py line 460). -/
inductive SecurityError where
  | securityException (msg : String)
deriving DecidableEq

/-- Contract model of `cryptography.fernet.Fernet` under the fixed service
key, viewed as a deterministic instance: authenticated symmetric encryption
over byte strings.  `decrypt` is `none` exactly where the library raises
`InvalidToken` (tampered or malformed token).  The two proof fields are the
library's documented guarantees: decryption inverts encryption, and a token
that decrypts successfully is the encryption of the returned plaintext. -/
structure FernetLike where
  encrypt : List Nat → List Nat
  decrypt : List Nat → Option (List Nat)
  decrypt_encrypt : ∀ x, decrypt (encrypt x) = some x
  auth : ∀ c x, decrypt c = some x → c = encrypt x

/-- Contract model of `base64.urlsafe_b64encode` / `urlsafe_b64decode`:
`decode` is the canonical partial inverse of `encode`. -/
structure Base64Like where
  encode : List Nat → List Nat
  decode : List Nat → Option (List Nat)
  decode_encode : ∀ x, decode (encode x) = some x
  canonical : ∀ c x, decode c = some x → c = encode x

/-- `CryptographicService.encrypt_sensitive_data` (security.py lines
128-136): Fernet-encrypt the data, then base64-encode the token. -/
def encrypt_sensitive_data (B : Base64Like) (F : FernetLike) (data : List Nat) : List Nat :=
  B.encode (F.encrypt data)

/-- `CryptographicService.decrypt_sensitive_data` (security.py lines
138-147): base64-decode then Fernet-decrypt; a failure in either step lands
in the `except` clause, which raises `SecurityException`. -/
def decrypt_sensitive_data (B : Base64Like) (F : FernetLike) (encrypted : List Nat) :
    Except SecurityError (List Nat) :=
  match B.decode encrypted with
  | none => .error (.securityException "Failed to decrypt sensitive data")
  | some token =>
    match F.decrypt token with
    | none => .error (.securityException "Failed to decrypt sensitive data")
    | some plain => .ok plain

/-- C8: round trip — for every byte string `x`,
`decrypt_sensitive_data (encrypt_sensitive_data x) = x`; and fail-closed —
on any input that `encrypt_sensitive_data` cannot have produced,
`decrypt_sensitive_data` raises the `SecurityException` kind rather than
returning corrupted plaintext. -/
theorem encrypt_decrypt_round_trip_and_fail_closed :
    ∀ (B : Base64Like) (F : FernetLike),
      (∀ x, decrypt_sensitive_data B F (encrypt_sensitive_data B F x) = .ok x) ∧
      (∀ c, (∀ y, c ≠ encrypt_sensitive_data B F y) →
        ∃ e, decrypt_sensitive_data B F c = .error e) := by
  intro B F
  constructor
  · intro x
    simp [decrypt_sensitive_data, encrypt_sensitive_data, B.decode_encode, F.decrypt_encrypt]
  · intro c hc
    cases hd : B.decode c with
    | none =>
      exact ⟨.securityException "Failed to decrypt sensitive data",
        by simp [decrypt_sensitive_data, hd]⟩
    | some token =>
      cases hf : F.decrypt token with
      | none =>
        exact ⟨.securityException "Failed to decrypt sensitive data",
          by simp [decrypt_sensitive_data, hd, hf]⟩
      | some plain =>
        exfalso
        apply hc plain
        rw [encrypt_sensitive_data, ← F.auth token plain hf]
        exact B.canonical c token hd

def b64ToyEncode (x : List Nat) : List Nat := 0 :: x

def b64ToyDecode : List Nat → Option (List Nat)
  | 0 :: t => some t
  | _ => none

/-- A concrete instance of the base64 contract, used only to witness the
hypotheses of the round-trip theorem. -/
def b64Toy : Base64Like where
  encode := b64ToyEncode
  decode := b64ToyDecode
  decode_encode := fun _ => rfl
  canonical := by
    intro c x h
    rcases c with _ | ⟨n, t⟩
    · simp [b64ToyDecode] at h
    · rcases n with _ | n
      · simp only [b64ToyDecode, Option.some.injEq] at h
        simp [b64ToyEncode, h]
      · simp [b64ToyDecode] at h

def fernetToyEncrypt (x : List Nat) : List Nat := 1 :: x

def fernetToyDecrypt : List Nat → Option (List Nat)
  | 1 :: t => some t
  | _ => none

/-- A concrete instance of the Fernet contract, used only to witness the
hypotheses of the round-trip theorem. -/
def fernetToy : FernetLike where
  encrypt := fernetToyEncrypt
  decrypt := fernetToyDecrypt
  decrypt_encrypt := fun _ => rfl
  auth := by
    intro c x h
    rcases c with _ | ⟨n, t⟩
    · simp [fernetToyDecrypt] at h
    · rcases n with _ | ⟨_ | n⟩
      · simp [fernetToyDecrypt] at h
      · simp only [fernetToyDecrypt, Option.some.injEq] at h
        simp [fernetToyEncrypt, h]
      · simp [fernetToyDecrypt] at h

/-- Witness for C8: the round trip at a concrete byte string, and the
fail-closed branch at a concrete non-ciphertext. -/
theorem encrypt_decrypt_witness :
    decrypt_sensitive_data b64Toy fernetToy
        (encrypt_sensitive_data b64Toy fernetToy [7, 7]) = .ok [7, 7] ∧
    ∃ e, decrypt_sensitive_data b64Toy fernetToy [5] = .error e := by
  constructor
  · exact (encrypt_decrypt_round_trip_and_fail_closed b64Toy fernetToy).1 [7, 7]
  · exact (encrypt_decrypt_round_trip_and_fail_closed b64Toy fernetToy).2 [5]
      (by
        intro y h
        simp [encrypt_sensitive_data, b64Toy, b64ToyEncode, fernetToy, fernetToyEncrypt] at h)

/-- `CryptographicService.generate_hmac_signature` (security.py lines
149-161) with an explicit timestamp: `message = f"{data}:{timestamp}"`,
digest = HMAC-SHA256 of the message under the service secret — modelled as
the abstract deterministic digest function `mac` — and the returned value is
`f"{digest}:{timestamp}"`. -/
def generate_hmac_signature (mac : List Char → List Char) (data : List Char)
    (timestamp : Nat) : List Char :=
  mac (data ++ ':' :: natToChars timestamp) ++ ':' :: natToChars timestamp

/-- `CryptographicService.verify_hmac_signature` (security.py lines
163-192): split the signature on `:` into exactly two parts, parse the
timestamp (`int(...)`; a failure lands in the `except` clause returning
`False`), reject when `current_time - sig_time > max_age_seconds`, then
recompute the digest over `f"{data}:{timestamp}"` and compare with
`hmac.compare_digest` (equality of digests). -/
def verify_hmac_signature (mac : List Char → List Char) (now : Int)
    (data signature : List Char) (maxAgeSeconds : Int) : Bool :=
  match splitOnChar ':' signature with
  | [receivedSig, ts] =>
    match charsToNat? ts with
    | none => false
    | some sigTime =>
      if now - (sigTime : Int) > maxAgeSeconds then false
      else decide (receivedSig = mac (data ++ ':' :: ts))
  | _ => false

/-- C10: HMAC verification bounds only the past — for every data string and
timestamp `t` with `now - t ≤ max_age_seconds` (including timestamps
arbitrarily far in the future, where the difference is negative), a signature
produced by `generate_hmac_signature` verifies.  The digest hypothesis
records that hex digests contain no `:`. -/
theorem verify_hmac_accepts_within_age (mac : List Char → List Char)
    (data : List Char) (t : Nat) (now maxAge : Int)
    (hdigest : ∀ m, ':' ∉ mac m) (hage : now - (t : Int) ≤ maxAge) :
    verify_hmac_signature mac now data (generate_hmac_signature mac data t) maxAge = true := by
  unfold verify_hmac_signature generate_hmac_signature
  rw [splitOnChar_parts ':' (mac (data ++ ':' :: natToChars t)) (natToChars t)
    (hdigest _) (colon_not_mem_natToChars t)]
  simp only [charsToNat?_natToChars t]
  rw [if_neg (not_lt.mpr hage)]
  simp

/-- Witness for C10 at a timestamp 1000 seconds in the future of
`now = 0`. -/
theorem verify_hmac_accepts_witness :
    verify_hmac_signature (fun _ => ['s', 'i', 'g']) 0 ['d']
      (generate_hmac_signature (fun _ => ['s', 'i', 'g']) ['d'] 1000) 300 = true :=
  verify_hmac_accepts_within_age (fun _ => ['s', 'i', 'g']) ['d'] 1000 0 300
    (by intro m; simp) (by decide)

/- ==================== JWT (backend/core/security.py, JWTService) ==================== -/

/-- The claim set carried by a service JWT.  Claims that `auth.py` reads
with `payload.get(...)` are optional; `iss`/`aud` are always set by the
token creators and modelled as plain strings. -/
structure JwtClaims where
  sub : Option String
  role : Option String
  sessionId : Option String
  familyId : Option String
  exp : Option Int
  iat : Option Int
  iss : String
  aud : String
  tokenType : Option String
deriving DecidableEq

/-- A token as seen through python-jose: its claim set together with whether
its HS256 signature verifies under the service secret (`sigOk`).  The
signature computation itself is outside the embedding; `sigOk` is the
library's verdict on it. -/
structure JoseToken where
  claims : JwtClaims
  sigOk : Bool
deriving DecidableEq

/-- The `exp` validation done inside `jose.jwt.decode`: fails when an `exp`
claim is present and in the past. -/
def joseExpOk (exp : Option Int) (now : Int) : Bool :=
  match exp with
  | none => true
  | some e => decide (now ≤ e)

/-- `jose.jwt.decode(token, key, algorithms=[...], audience="tumataxi-app",
issuer="makko-intelligence-auth")` as called by `JWTService.verify_token`
(security.py lines 276-282), modelled from the jose contract: raises
`JWTError` (here `none`) on signature mismatch, audience mismatch, issuer
mismatch, or a past `exp` claim; otherwise returns the claim set. -/
def joseDecode (tok : JoseToken) (now : Int) : Option JwtClaims :=
  if tok.sigOk && (tok.claims.aud == "tumataxi-app") &&
      (tok.claims.iss == "makko-intelligence-auth") && joseExpOk tok.claims.exp now then
    some tok.claims
  else none

/-- `JWTService.verify_token` (security.py lines 273-310): jose decode
(its `JWTError` becomes `SecurityException "Invalid token"`), then the
token-type check, the redundant manual expiry check (`payload.get("exp", 0)
< now`) and the clock-skew check (`payload.get("iat", 0) > now + 60`).  The
type-mismatch `SecurityException` raised inside the `try` is re-caught by
the blanket `except Exception` and re-raised as `SecurityException "Token
verification failed"`; every failure is the same exception kind. -/
def verify_token (tok : JoseToken) (tokenType : String) (now : Int) :
    Except SecurityError JwtClaims :=
  match joseDecode tok now with
  | none => .error (.securityException "Invalid token")
  | some payload =>
    if payload.tokenType ≠ some tokenType then
      .error (.securityException "Token verification failed")
    else if payload.exp.getD 0 < now then
      .error (.securityException "Token verification failed")
    else if payload.iat.getD 0 > now + 60 then
      .error (.securityException "Token verification failed")
    else .ok payload

deriving instance DecidableEq for Except

theorem joseExpOk_of_le (exp : Option Int) (now : Int) (h : now ≤ exp.getD 0) :
    joseExpOk exp now = true := by
  cases exp with
  | none => rfl
  | some e =>
    simp only [Option.getD_some] at h
    simp [joseExpOk, h]

theorem joseDecode_some (tok : JoseToken) (now : Int) (payload : JwtClaims)
    (h : joseDecode tok now = some payload) : payload = tok.claims := by
  unfold joseDecode at h
  split at h
  · exact (Option.some.inj h).symm
  · cases h

/-- An access token signed with the service secret but carrying a foreign
audience claim. -/
def wrongAudienceToken : JoseToken :=
  { claims :=
      { sub := some "user-1", role := some "passenger", sessionId := some "sess-1",
        familyId := none, exp := some 100000, iat := some 0,
        iss := "makko-intelligence-auth", aud := "other-app",
        tokenType := some "access" },
    sigOk := true }

/-- C5 counterexample: at `now = 50`, `wrongAudienceToken` satisfies none of
the claim's four rejection conditions — its signature verifies, its
`token_type` matches, its `exp` is in the future, and its `iat` is not more
than 60s in the future — yet `verify_token` rejects it (audience mismatch
inside `jwt.decode`), so "when none of these hold it returns the decoded
claim set" fails on the code. -/
theorem verify_token_rejects_valid_signature_wrong_audience :
    wrongAudienceToken.sigOk = true ∧
    wrongAudienceToken.claims.tokenType = some "access" ∧
    ¬ (wrongAudienceToken.claims.exp.getD 0 < 50) ∧
    ¬ (wrongAudienceToken.claims.iat.getD 0 > 50 + 60) ∧
    verify_token wrongAudienceToken "access" 50 =
      .error (.securityException "Invalid token") := by
  refine ⟨rfl, rfl, by decide, by decide, by decide⟩

/-- C5 amended: `verify_token` returns the decoded claim set iff the
signature verifies, the audience is `tumataxi-app`, the issuer is
`makko-intelligence-auth`, the `token_type` claim equals the expected type,
the `exp` claim (0 when absent) is not in the past, and the `iat` claim
(0 when absent) is at most 60 seconds in the future; in every other case it
raises the single uniform `SecurityException` kind, and a successful result
is always exactly the token's claim set. -/
theorem verify_token_characterization (tok : JoseToken) (tokenType : String) (now : Int) :
    (verify_token tok tokenType now = .ok tok.claims ↔
      (tok.sigOk = true ∧ tok.claims.aud = "tumataxi-app" ∧
        tok.claims.iss = "makko-intelligence-auth" ∧
        tok.claims.tokenType = some tokenType ∧
        now ≤ tok.claims.exp.getD 0 ∧ tok.claims.iat.getD 0 ≤ now + 60)) ∧
    (∀ c, verify_token tok tokenType now = .ok c → c = tok.claims) := by
  constructor
  · unfold verify_token joseDecode
    by_cases hcond : (tok.sigOk && (tok.claims.aud == "tumataxi-app") &&
        (tok.claims.iss == "makko-intelligence-auth") && joseExpOk tok.claims.exp now) = true
    · rw [if_pos hcond]
      simp only [Bool.and_eq_true, beq_iff_eq] at hcond
      obtain ⟨⟨⟨hsig, haud⟩, hiss⟩, hexpOk⟩ := hcond
      show (if tok.claims.tokenType ≠ some tokenType then _ else _) = _ ↔ _
      split_ifs with h1 h2 h3
      · exact iff_of_false (by simp) (fun hrhs => h1 hrhs.2.2.2.1)
      · exact iff_of_false (by simp) (fun hrhs => absurd hrhs.2.2.2.2.1 (not_le.mpr h2))
      · exact iff_of_false (by simp) (fun hrhs => absurd hrhs.2.2.2.2.2 (not_le.mpr h3))
      · exact iff_of_true rfl ⟨hsig, haud, hiss, not_not.mp h1, not_lt.mp h2, not_lt.mp h3⟩
    · rw [if_neg hcond]
      refine iff_of_false (by simp) (fun hrhs => hcond ?_)
      simp only [Bool.and_eq_true, beq_iff_eq]
      exact ⟨⟨⟨hrhs.1, hrhs.2.1⟩, hrhs.2.2.1⟩,
        joseExpOk_of_le tok.claims.exp now hrhs.2.2.2.2.1⟩
  · intro c hc
    unfold verify_token at hc
    cases hd : joseDecode tok now with
    | none => rw [hd] at hc; exact absurd hc (by simp)
    | some payload =>
      rw [hd] at hc
      have hc2 : (if payload.tokenType ≠ some tokenType then
            (Except.error (SecurityError.securityException "Token verification failed") :
              Except SecurityError JwtClaims)
          else if payload.exp.getD 0 < now then
            Except.error (SecurityError.securityException "Token verification failed")
          else if payload.iat.getD 0 > now + 60 then
            Except.error (SecurityError.securityException "Token verification failed")
          else Except.ok payload) = Except.ok c := hc
      split_ifs at hc2
      rw [← Except.ok.inj hc2]
      exact joseDecode_some tok now payload hd

/-- A well-formed access token accepted by the service. -/
def validAccessToken : JoseToken :=
  { claims :=
      { sub := some "user-1", role := some "admin", sessionId := some "sess-1",
        familyId := none, exp := some 100000, iat := some 0,
        iss := "makko-intelligence-auth", aud := "tumataxi-app",
        tokenType := some "access" },
    sigOk := true }

/-- Witness for C5's amended characterization at a concrete accepted
token. -/
theorem verify_token_characterization_witness :
    verify_token validAccessToken "access" 50 = .ok validAccessToken.claims :=
  (verify_token_characterization validAccessToken "access" 50).1.mpr
    ⟨rfl, rfl, rfl, rfl, by decide, by decide⟩

/- ==================== Users & lockout (models.py, auth.py login_user) ==================== -/

inductive UserStatus where
  | active
  | inactive
  | suspended
  | pending_verification
  | deleted
deriving DecidableEq

/-- The fields of `User` (models.py) that the lockout state machine reads
and writes. -/
structure UserRec where
  id : String
  status : UserStatus
  deletedAt : Option Int
  failedLoginAttempts : Nat
  accountLockedUntil : Option Int
deriving DecidableEq

/-- `User.is_locked` (models.py lines 151-156): the lock timestamp is set
and strictly in the future. -/
def UserRec.is_locked (u : UserRec) (now : Int) : Bool :=
  match u.accountLockedUntil with
  | none => false
  | some t => decide (t > now)

/-- `User.is_active` (models.py lines 143-149). -/
def UserRec.is_active (u : UserRec) (now : Int) : Bool :=
  decide (u.status = UserStatus.active) && decide (u.deletedAt = none) &&
    (match u.accountLockedUntil with
     | none => true
     | some t => decide (t < now))

namespace SecurityConfig

def ACCESS_TOKEN_EXPIRE_MINUTES : Nat := 15

def MAX_LOGIN_ATTEMPTS : Nat := 5

def ACCOUNT_LOCK_DURATION_MINUTES : Nat := 30

def SESSION_TIMEOUT_MINUTES : Nat := 120

def MAX_CONCURRENT_SESSIONS : Nat := 3

end SecurityConfig

inductive LoginResult where
  | locked
  | invalidCredentials
  | accountInactive
  | success
deriving DecidableEq

/-- A `SecurityEvent` row (models.py lines 333-364), reduced to the fields
the embedded flows write. -/
structure SecurityEventRec where
  userId : Option String
  eventType : String
  severity : String
  confidenceScore : Nat
deriving DecidableEq

/-- The lockout-relevant core of `login_user` (auth.py lines 462-525) for a
user found by email: the lock check (HTTP 423) precedes password
verification; `pwdOk` stands for the `crypto_service.verify_password`
result; a failure increments the counter and engages a 30-minute lock once
`MAX_LOGIN_ATTEMPTS` is reached, logging a high-severity event; an inactive
account is rejected (HTTP 403); success resets the counter and clears the
lock timestamp. -/
def login_user (u : UserRec) (now : Int) (pwdOk : Bool) :
    UserRec × LoginResult × List SecurityEventRec :=
  if u.is_locked now then (u, LoginResult.locked, [])
  else if pwdOk = false then
    let attempts := u.failedLoginAttempts + 1
    if SecurityConfig.MAX_LOGIN_ATTEMPTS ≤ attempts then
      ({ u with
          failedLoginAttempts := attempts,
          accountLockedUntil := some (now + 60 * (SecurityConfig.ACCOUNT_LOCK_DURATION_MINUTES : Int)) },
       LoginResult.invalidCredentials,
       [{ userId := some u.id, eventType := "account_locked", severity := "high",
          confidenceScore := 90 }])
    else ({ u with failedLoginAttempts := attempts }, LoginResult.invalidCredentials, [])
  else if u.is_active now = false then (u, LoginResult.accountInactive, [])
  else ({ u with failedLoginAttempts := 0, accountLockedUntil := none },
    LoginResult.success, [])

/-- C4: the account lockout state machine — on an unlocked account each
failed verification increments the counter by exactly 1; the attempt that
brings the counter to `MAX_LOGIN_ATTEMPTS` (5) stamps
`account_locked_until = now + 30 minutes`, making `is_locked` true; a
successful login resets the counter to 0 and clears the lock; and at every
time `is_locked` holds iff the lock timestamp is set and strictly in the
future. -/
theorem account_lockout_state_machine :
    (∀ (u : UserRec) (now : Int), u.is_locked now = false →
      (login_user u now false).1.failedLoginAttempts = u.failedLoginAttempts + 1) ∧
    (∀ (u : UserRec) (now : Int), u.is_locked now = false →
      SecurityConfig.MAX_LOGIN_ATTEMPTS ≤ u.failedLoginAttempts + 1 →
      (login_user u now false).1.accountLockedUntil =
          some (now + 60 * (SecurityConfig.ACCOUNT_LOCK_DURATION_MINUTES : Int)) ∧
        (login_user u now false).1.is_locked now = true) ∧
    (∀ (u : UserRec) (now : Int), u.is_locked now = false → u.is_active now = true →
      (login_user u now true).2.1 = LoginResult.success ∧
      (login_user u now true).1.failedLoginAttempts = 0 ∧
      (login_user u now true).1.accountLockedUntil = none) ∧
    (∀ (u : UserRec) (now : Int),
      u.is_locked now = true ↔ ∃ t, u.accountLockedUntil = some t ∧ now < t) := by
  refine ⟨?_, ?_, ?_, ?_⟩
  · intro u now hl
    by_cases hmax : SecurityConfig.MAX_LOGIN_ATTEMPTS ≤ u.failedLoginAttempts + 1
    · simp [login_user, hl, hmax]
    · simp [login_user, hl, hmax]
  · intro u now hl hmax
    have hlock : (login_user u now false).1.accountLockedUntil
        = some (now + 60 * (SecurityConfig.ACCOUNT_LOCK_DURATION_MINUTES : Int)) := by
      simp [login_user, hl, hmax]
    refine ⟨hlock, ?_⟩
    simp only [UserRec.is_locked, hlock]
    simp [SecurityConfig.ACCOUNT_LOCK_DURATION_MINUTES]
  · intro u now hl hact
    simp [login_user, hl, hact]
  · intro u now
    cases ht : u.accountLockedUntil with
    | none => simp [UserRec.is_locked, ht]
    | some t =>
      simp [UserRec.is_locked, ht]

/-- A demonstration user one failed attempt away from lockout. -/
def demoUser : UserRec :=
  { id := "u-1", status := UserStatus.active, deletedAt := none,
    failedLoginAttempts := 4, accountLockedUntil := none }

/-- Witness for C4: the fifth failed attempt locks `demoUser`. -/
theorem account_lockout_witness :
    (login_user demoUser 0 false).1.accountLockedUntil =
        some (0 + 60 * (SecurityConfig.ACCOUNT_LOCK_DURATION_MINUTES : Int)) ∧
      (login_user demoUser 0 false).1.is_locked 0 = true :=
  account_lockout_state_machine.2.1 demoUser 0 (by decide) (by decide)

/- ==================== Sessions (models.py, auth.py detect_suspicious_session) ==================== -/

inductive SessionStatus where
  | active
  | expired
  | revoked
  | suspicious
deriving DecidableEq

/-- A `UserSession` row (models.py lines 158-217), reduced to the fields the
embedded flows touch.  `id` is the primary key; `sessionId` is the separate
`session_id` token column. -/
structure UserSessionRec where
  id : String
  userId : String
  sessionId : String
  status : SessionStatus
  createdAt : Int
  lastActivityAt : Int
  expiresAt : Int
  endedAt : Option Int
  isSuspicious : Bool
  riskScore : Nat
  countryCode : Option String
deriving DecidableEq

/-- `UserSession.is_active` (models.py lines 207-213). -/
def UserSessionRec.is_active (s : UserSessionRec) (now : Int) : Bool :=
  decide (s.status = SessionStatus.active) && decide (now < s.expiresAt) &&
    decide (s.endedAt = none)

/-- The query of auth.py lines 239-243: the user's sessions with status
ACTIVE and `expires_at > now` (unlike `is_active`, `ended_at` is not
consulted here). -/
def activeSessionsQuery (sessions : List UserSessionRec) (userId : String) (now : Int) :
    List UserSessionRec :=
  sessions.filter (fun s => decide (s.userId = userId) &&
    decide (s.status = SessionStatus.active) && decide (now < s.expiresAt))

/-- `detect_suspicious_session` (auth.py lines 235-275): the new-country rule
flags the incoming session and logs a medium event; the concurrency rule
raises the risk score to at least 50 and revokes the oldest active session
(Python `min` by `created_at`).  Returns the updated session table, the
(possibly flagged) incoming session, and the logged events. -/
def detect_suspicious_session (sessions : List UserSessionRec) (user : UserRec)
    (s : UserSessionRec) (now : Int) :
    List UserSessionRec × UserSessionRec × List SecurityEventRec :=
  let active := activeSessionsQuery sessions user.id now
  let countries := active.filterMap (fun r =>
    match r.countryCode with
    | some c => if c = "" then none else some c
    | none => none)
  let flagged : UserSessionRec × List SecurityEventRec :=
    match active, s.countryCode with
    | _ :: _, some cc =>
      if cc ≠ "" ∧ countries.contains cc = false ∧ countries ≠ [] then
        ({ s with isSuspicious := true, riskScore := 75 },
         [{ userId := some user.id, eventType := "suspicious_login_location",
            severity := "medium", confidenceScore := 75 }])
      else (s, [])
    | _, _ => (s, [])
  if SecurityConfig.MAX_CONCURRENT_SESSIONS ≤ active.length then
    let s2 := { flagged.1 with riskScore := max flagged.1.riskScore 50 }
    match active with
    | [] => (sessions, s2, flagged.2)
    | a :: rest =>
      let oldest := pyMinBy (fun r => r.createdAt) a rest
      (sessions.map (fun r =>
        if r.id = oldest.id then
          { r with status := SessionStatus.revoked, endedAt := some now }
        else r), s2, flagged.2)
  else (sessions, flagged.1, flagged.2)

/-- Injectivity on members of a list whose image under `f` has no
duplicates. -/
theorem nodup_map_inj {α β : Type} {f : α → β} :
    ∀ (l : List α), (l.map f).Nodup → ∀ x ∈ l, ∀ y ∈ l, f x = f y → x = y := by
  intro l
  induction l with
  | nil => intro _ x hx; exact absurd hx (by simp)
  | cons a t ih =>
    intro hnd x hx y hy hf
    rw [List.map_cons, List.nodup_cons] at hnd
    rcases List.mem_cons.mp hx with hx1 | hx1 <;> rcases List.mem_cons.mp hy with hy1 | hy1
    · rw [hx1, hy1]
    · exfalso
      rw [hx1] at hf
      exact hnd.1 (hf ▸ List.mem_map_of_mem f hy1)
    · exfalso
      rw [hy1] at hf
      exact hnd.1 (hf ▸ List.mem_map_of_mem f hx1)
    · exact ih hnd.2 x hx1 y hy1 hf

/-- C6: concurrency cap eviction — when the incoming session's user already
has at least `MAX_CONCURRENT_SESSIONS` (3) active sessions, the new
session's risk score ends at ≥ 50 and the session table is updated by
revoking exactly the active session `o` with the strictly earliest
`created_at` (stamping its `ended_at`), every other row unchanged. -/
theorem concurrency_cap_eviction (sessions : List UserSessionRec) (user : UserRec)
    (s : UserSessionRec) (now : Int) (o : UserSessionRec)
    (hnodup : (sessions.map UserSessionRec.id).Nodup)
    (hcap : SecurityConfig.MAX_CONCURRENT_SESSIONS ≤
      (activeSessionsQuery sessions user.id now).length)
    (ho : o ∈ activeSessionsQuery sessions user.id now)
    (hmin : ∀ r ∈ activeSessionsQuery sessions user.id now,
      r.id ≠ o.id → o.createdAt < r.createdAt) :
    (detect_suspicious_session sessions user s now).1 =
        sessions.map (fun r =>
          if r.id = o.id then { r with status := SessionStatus.revoked, endedAt := some now }
          else r) ∧
      50 ≤ (detect_suspicious_session sessions user s now).2.1.riskScore := by
  have hndactive : ((activeSessionsQuery sessions user.id now).map UserSessionRec.id).Nodup := by
    have hsub : List.Sublist (activeSessionsQuery sessions user.id now) sessions :=
      List.filter_sublist sessions
    exact hnodup.sublist (hsub.map UserSessionRec.id)
  cases hactive : activeSessionsQuery sessions user.id now with
  | nil =>
    rw [hactive] at hcap
    simp [SecurityConfig.MAX_CONCURRENT_SESSIONS] at hcap
  | cons a rest =>
    have hmemM : pyMinBy (fun r => r.createdAt) a rest ∈ a :: rest :=
      pyMinBy_mem (fun r => r.createdAt) rest a
    have hleM : (pyMinBy (fun r => r.createdAt) a rest).createdAt ≤ o.createdAt :=
      pyMinBy_le (fun r => r.createdAt) rest a o (hactive ▸ ho)
    have hmo : pyMinBy (fun r => r.createdAt) a rest = o := by
      by_cases hid : (pyMinBy (fun r => r.createdAt) a rest).id = o.id
      · exact nodup_map_inj (activeSessionsQuery sessions user.id now)
          hndactive _ (hactive ▸ hmemM) o ho hid
      · exact absurd hleM (not_le.mpr (hmin _ (hactive ▸ hmemM) hid))
    simp only [detect_suspicious_session, hactive, if_pos (hactive ▸ hcap), hmo]
    exact ⟨trivial, le_max_right _ 50⟩

def sessA : UserSessionRec :=
  { id := "s-a", userId := "u-1", sessionId := "tok-a", status := SessionStatus.active,
    createdAt := 1, lastActivityAt := 1, expiresAt := 100000, endedAt := none,
    isSuspicious := false, riskScore := 0, countryCode := some "US" }

def sessB : UserSessionRec :=
  { id := "s-b", userId := "u-1", sessionId := "tok-b", status := SessionStatus.active,
    createdAt := 2, lastActivityAt := 2, expiresAt := 100000, endedAt := none,
    isSuspicious := false, riskScore := 0, countryCode := some "US" }

def sessC : UserSessionRec :=
  { id := "s-c", userId := "u-1", sessionId := "tok-c", status := SessionStatus.active,
    createdAt := 3, lastActivityAt := 3, expiresAt := 100000, endedAt := none,
    isSuspicious := false, riskScore := 0, countryCode := some "US" }

def sessNew : UserSessionRec :=
  { id := "s-d", userId := "u-1", sessionId := "tok-d", status := SessionStatus.active,
    createdAt := 10, lastActivityAt := 10, expiresAt := 100000, endedAt := none,
    isSuspicious := false, riskScore := 0, countryCode := some "US" }

/-- Witness for C6: with three active sessions created at 1 < 2 < 3,
creating a fourth revokes exactly the earliest one. -/
theorem concurrency_cap_eviction_witness :
    (detect_suspicious_session [sessA, sessB, sessC] demoUser sessNew 10).1 =
        [sessA, sessB, sessC].map (fun r =>
          if r.id = sessA.id then { r with status := SessionStatus.revoked, endedAt := some 10 }
          else r) ∧
      50 ≤ (detect_suspicious_session [sessA, sessB, sessC] demoUser sessNew 10).2.1.riskScore :=
  concurrency_cap_eviction [sessA, sessB, sessC] demoUser sessNew 10 sessA
    (by decide) (by decide) (by decide) (by decide)

/- ==================== Refresh-token rotation (auth.py) ==================== -/

/-- A `RefreshToken` row (models.py lines 219-257). -/
structure RefreshTokenRec where
  id : String
  userId : String
  sessionId : String
  tokenHash : String
  tokenFamily : String
  isRevoked : Bool
  isUsed : Bool
  expiresAt : Int
  usedAt : Option Int
  revokedAt : Option Int
deriving DecidableEq

/-- `RefreshToken.is_valid` (models.py lines 259-265): not revoked, not
used, and not expired. -/
def RefreshTokenRec.is_valid (r : RefreshTokenRec) (now : Int) : Bool :=
  !r.isRevoked && !r.isUsed && decide (now < r.expiresAt)

/-- The persistent state the refresh/logout flows read and write. -/
structure AuthDB where
  users : List UserRec
  sessions : List UserSessionRec
  refreshTokens : List RefreshTokenRec
  securityEvents : List SecurityEventRec
deriving DecidableEq

/-- The names bound at module level in backend/api/auth.py (the explicitly
listed module names of lines 7-30 plus the module-level definitions).
`hashlib` is referenced at line 631 but never bound, so evaluating
`hashlib.sha256` there raises `NameError`. -/
def authModuleGlobals : List String :=
  ["datetime", "timedelta", "timezone", "Optional", "Dict", "Any", "List",
   "APIRouter", "Depends", "HTTPException", "status", "Request", "Response",
   "BackgroundTasks", "HTTPBearer", "HTTPAuthorizationCredentials", "Session",
   "IntegrityError", "BaseModel", "EmailStr", "Field", "validator",
   "structlog", "ipaddress", "parse_user_agent", "User", "UserSession",
   "RefreshToken", "AuditLog", "SecurityEvent", "UserStatus", "UserRole",
   "SessionStatus", "AuditAction", "crypto_service", "jwt_service",
   "two_factor_service", "PasswordValidator", "SecurityConfig",
   "SecurityException", "get_db", "rate_limiter", "security_monitor",
   "get_client_ip", "get_device_fingerprint", "get_geo_location", "logger",
   "router", "security", "RegisterRequest", "LoginRequest", "TokenResponse",
   "RefreshTokenRequest", "ChangePasswordRequest", "ResetPasswordRequest",
   "ConfirmResetPasswordRequest", "Enable2FARequest", "Verify2FARequest",
   "UserProfileResponse", "get_current_user", "create_user_session",
   "detect_suspicious_session", "log_audit_event", "register_user",
   "login_user", "refresh_access_token", "logout_user",
   "get_current_user_profile", "send_verification_email"]

inductive HttpError where
  | unauthorized (detail : String)
  | serviceUnavailable (detail : String)
deriving DecidableEq

/-- The data of a successful rotation response that the embedding tracks. -/
structure RotateSuccess where
  newTokenHash : String
  familyId : String
deriving DecidableEq

/-- A presented refresh token: its jose view plus
`hashlib.sha256(token).hexdigest()` — SHA-256 is deterministic, so the
digest is modelled as a fixed string carried with the token. -/
structure PresentedRefresh where
  jose : JoseToken
  sha256Hash : String
deriving DecidableEq

/-- The fresh values `jwt_service.create_refresh_token` draws for the
successor token during rotation (new row id, new token hash, new expiry);
the family id is the one passed in. -/
structure FreshRefresh where
  recId : String
  tokenHash : String
  expiresAt : Int
deriving DecidableEq

/-- Python truthiness of an optional string (`None` and `""` are falsy),
used by the `if not all([...])` check at auth.py line 624. -/
def truthyOptStr : Option String → Bool
  | none => false
  | some s => decide (s ≠ "")

/-- The family-wide revocation update of auth.py lines 640-645. -/
def revokeFamily (now : Int) (fam : String) (l : List RefreshTokenRec) : List RefreshTokenRec :=
  l.map (fun x =>
    if x.tokenFamily = fam then { x with isRevoked := true, revokedAt := some now } else x)

/-- The critical `SecurityEvent` of auth.py lines 648-657. -/
def tokenReuseEvent (userId : String) : SecurityEventRec :=
  { userId := some userId, eventType := "token_reuse_detected", severity := "critical",
    confidenceScore := 95 }

/-- The body of `refresh_access_token` from the token-hash lookup onward
(auth.py lines 630-729), as written: look up the record by token hash and
user id; a missing record is a bare 401; a found record failing `is_valid`
revokes its whole family and logs the critical event before the 401; a
valid record additionally needs an active user and session
(`UserSession.id` is compared against the payload's `session_id`, exactly
as in the source), is then marked used, and a successor row carrying the
payload's family id is inserted. -/
def refreshRotateBody (now : Int) (db : AuthDB) (tokenHash : String)
    (payload : JwtClaims) (fresh : FreshRefresh) : AuthDB × Except HttpError RotateSuccess :=
  let userId := payload.sub.getD ""
  match db.refreshTokens.find? (fun r => decide (r.tokenHash = tokenHash ∧ r.userId = userId)) with
  | none => (db, .error (.unauthorized "Invalid or expired refresh token"))
  | some r =>
    if r.is_valid now then
      match db.users.find? (fun u => decide (u.id = userId)),
        db.sessions.find? (fun sess => decide (sess.id = payload.sessionId.getD "")) with
      | some user, some sess =>
        if user.is_active now && sess.is_active now then
          let marked := db.refreshTokens.map (fun x =>
            if x.id = r.id then { x with isUsed := true, usedAt := some now } else x)
          let newRec : RefreshTokenRec :=
            { id := fresh.recId, userId := user.id, sessionId := sess.id,
              tokenHash := fresh.tokenHash, tokenFamily := payload.familyId.getD "",
              isRevoked := false, isUsed := false, expiresAt := fresh.expiresAt,
              usedAt := none, revokedAt := none }
          ({ db with
              refreshTokens := marked ++ [newRec],
              sessions := db.sessions.map (fun x =>
                if x.id = sess.id then { x with lastActivityAt := now } else x) },
            .ok { newTokenHash := fresh.tokenHash, familyId := payload.familyId.getD "" })
        else (db, .error (.unauthorized "Invalid session or user"))
      | _, _ => (db, .error (.unauthorized "Invalid session or user"))
    else
      ({ db with
          refreshTokens := revokeFamily now r.tokenFamily db.refreshTokens,
          securityEvents := db.securityEvents ++ [tokenReuseEvent userId] },
        .error (.unauthorized "Invalid or expired refresh token"))

/-- `refresh_access_token` (auth.py lines 602-738): JWT verification first —
a `SecurityException` from `verify_token` is caught by the blanket
`except Exception`, yielding HTTP 500 — then the payload truthiness check
(401), then the `hashlib.sha256` call: `hashlib` does not resolve among the
module's names, the `NameError` lands in the blanket `except`, and the
handler answers HTTP 500.  Only if the name resolved would the rotation
body run. -/
def refresh_access_token (now : Int) (db : AuthDB) (tok : PresentedRefresh)
    (fresh : FreshRefresh) : AuthDB × Except HttpError RotateSuccess :=
  match verify_token tok.jose "refresh" now with
  | .error _ =>
    (db, .error (.serviceUnavailable "Token refresh service temporarily unavailable"))
  | .ok payload =>
    if truthyOptStr payload.sub && truthyOptStr payload.sessionId &&
        truthyOptStr payload.familyId then
      if authModuleGlobals.contains "hashlib" then
        refreshRotateBody now db tok.sha256Hash payload fresh
      else
        (db, .error (.serviceUnavailable "Token refresh service temporarily unavailable"))
    else (db, .error (.unauthorized "Invalid refresh token payload"))

/-- The session/token revocation of `logout_user` (auth.py lines 754-781):
given the bearer token's unsafely decoded `session_id`, the matching session
of the current user is revoked and every refresh token row pointing at that
session is revoked. -/
def logout_user (now : Int) (db : AuthDB) (currentUserId : String)
    (sessionIdFromToken : Option String) : AuthDB :=
  match sessionIdFromToken with
  | none => db
  | some sid =>
    match db.sessions.find? (fun sess =>
        decide (sess.sessionId = sid ∧ sess.userId = currentUserId)) with
    | none => db
    | some sess =>
      { db with
        sessions := db.sessions.map (fun x =>
          if x.id = sess.id then
            { x with status := SessionStatus.revoked, endedAt := some now }
          else x),
        refreshTokens := db.refreshTokens.map (fun r =>
          if r.sessionId = sess.id then { r with isRevoked := true, revokedAt := some now }
          else r) }

/-- C3: every call to `refresh_access_token` that passes JWT verification
and reaches the token-hash lookup fails with HTTP 500 — `hashlib` is not
among auth.py's module-level names, the resulting `NameError` is converted
by the blanket `except` into "Token refresh service temporarily
unavailable", and the database is untouched; the success branch of rotation
(mark used, issue successor) is unreachable for every input. -/
theorem refresh_reaches_hashlib_and_fails_500 (now : Int) (db : AuthDB)
    (tok : PresentedRefresh) (fresh : FreshRefresh) (payload : JwtClaims)
    (hver : verify_token tok.jose "refresh" now = .ok payload)
    (hfields : (truthyOptStr payload.sub && truthyOptStr payload.sessionId &&
      truthyOptStr payload.familyId) = true) :
    authModuleGlobals.contains "hashlib" = false ∧
    refresh_access_token now db tok fresh =
      (db, .error (.serviceUnavailable "Token refresh service temporarily unavailable")) := by
  have hno : "hashlib" ∉ authModuleGlobals := by decide
  exact ⟨by decide, by simp [refresh_access_token, hver, hfields, hno]⟩

def refreshDemoClaims : JwtClaims :=
  { sub := some "user-1", role := some "passenger", sessionId := some "sess-1",
    familyId := some "fam-1", exp := some 100000, iat := some 0,
    iss := "makko-intelligence-auth", aud := "tumataxi-app", tokenType := some "refresh" }

def refreshDemoToken : PresentedRefresh :=
  { jose := { claims := refreshDemoClaims, sigOk := true }, sha256Hash := "hash-original" }

def refreshDemoFresh : FreshRefresh :=
  { recId := "rt-2", tokenHash := "hash-successor", expiresAt := 1000000 }

def refreshDemoUser : UserRec :=
  { id := "user-1", status := UserStatus.active, deletedAt := none,
    failedLoginAttempts := 0, accountLockedUntil := none }

def refreshDemoSession : UserSessionRec :=
  { id := "sess-db-id", userId := "user-1", sessionId := "sess-1",
    status := SessionStatus.active, createdAt := 0, lastActivityAt := 0,
    expiresAt := 100000, endedAt := none, isSuspicious := false, riskScore := 0,
    countryCode := some "US" }

def refreshDemoRec : RefreshTokenRec :=
  { id := "rt-1", userId := "user-1", sessionId := "sess-db-id",
    tokenHash := "hash-original", tokenFamily := "fam-1", isRevoked := false,
    isUsed := false, expiresAt := 100000, usedAt := none, revokedAt := none }

def refreshDemoDB : AuthDB :=
  { users := [refreshDemoUser], sessions := [refreshDemoSession],
    refreshTokens := [refreshDemoRec], securityEvents := [] }

/-- Witness for C3 at a concrete signed refresh token. -/
theorem refresh_reaches_hashlib_and_fails_500_witness :
    refresh_access_token 1000 refreshDemoDB refreshDemoToken refreshDemoFresh =
      (refreshDemoDB,
        .error (.serviceUnavailable "Token refresh service temporarily unavailable")) :=
  (refresh_reaches_hashlib_and_fails_500 1000 refreshDemoDB refreshDemoToken
    refreshDemoFresh refreshDemoClaims (by decide) (by decide)).2

/-- C1 evidence: a state holding a valid, unused, unrevoked, unexpired
refresh-token record matching the presented signed refresh token — the
claim's precondition for a successful first rotation — yet the endpoint
answers HTTP 500 and leaves the database unchanged: the record is never
marked used and no successor is issued, because the `hashlib` reference
raises `NameError` before the lookup. -/
theorem first_rotate_call_fails_despite_valid_record :
    (∃ r, r ∈ refreshDemoDB.refreshTokens ∧ r.tokenHash = refreshDemoToken.sha256Hash ∧
      r.userId = "user-1" ∧ r.is_valid 1000 = true) ∧
    refresh_access_token 1000 refreshDemoDB refreshDemoToken refreshDemoFresh =
      (refreshDemoDB,
        .error (.serviceUnavailable "Token refresh service temporarily unavailable")) := by
  constructor
  · exact ⟨refreshDemoRec, by decide, by decide, by decide, by decide⟩
  · decide

def reuseDemoRec : RefreshTokenRec :=
  { id := "rt-9", userId := "user-1", sessionId := "sess-db-id",
    tokenHash := "hash-other", tokenFamily := "fam-1", isRevoked := false,
    isUsed := false, expiresAt := 100000, usedAt := none, revokedAt := none }

def reuseDemoDB : AuthDB :=
  { users := [], sessions := [], refreshTokens := [reuseDemoRec], securityEvents := [] }

/-- C2 counterexample: when the presented token's hash matches no record,
the rotation rejects with no revocation and no security event — the live
record of the payload's family `fam-1` stays unrevoked and the event log
stays empty, contradicting the claim that an absent record also revokes the
family and records a critical event before rejection. -/
theorem reuse_signal_not_raised_on_missing_record :
    refreshRotateBody 1000 reuseDemoDB "hash-missing" refreshDemoClaims refreshDemoFresh =
      (reuseDemoDB, .error (.unauthorized "Invalid or expired refresh token")) ∧
    refreshDemoClaims.familyId = some "fam-1" ∧
    reuseDemoRec ∈ reuseDemoDB.refreshTokens ∧
    reuseDemoRec.tokenFamily = "fam-1" ∧ reuseDemoRec.isRevoked = false ∧
    reuseDemoDB.securityEvents = [] := by
  refine ⟨by decide, rfl, by decide, rfl, rfl, rfl⟩

/-- C2 amended: in the rotation body as written (unreachable at runtime
because of the missing `hashlib` import), a hash lookup that finds a record
failing `is_valid()` marks every token of that record's family revoked with
`revoked_at` stamped and appends one critical `token_reuse_detected` event
before rejecting; a lookup that finds no record rejects with no revocation
and no event. -/
theorem reuse_signal_characterization (now : Int) (db : AuthDB) (tokenHash : String)
    (payload : JwtClaims) (fresh : FreshRefresh) :
    (db.refreshTokens.find? (fun r => decide (r.tokenHash = tokenHash ∧
        r.userId = payload.sub.getD "")) = none →
      refreshRotateBody now db tokenHash payload fresh =
        (db, .error (.unauthorized "Invalid or expired refresh token"))) ∧
    (∀ r, db.refreshTokens.find? (fun rr => decide (rr.tokenHash = tokenHash ∧
        rr.userId = payload.sub.getD "")) = some r →
      r.is_valid now = false →
      refreshRotateBody now db tokenHash payload fresh =
        ({ db with
            refreshTokens := revokeFamily now r.tokenFamily db.refreshTokens,
            securityEvents := db.securityEvents ++ [tokenReuseEvent (payload.sub.getD "")] },
          .error (.unauthorized "Invalid or expired refresh token")) ∧
      ∀ x ∈ revokeFamily now r.tokenFamily db.refreshTokens,
        x.tokenFamily = r.tokenFamily → x.isRevoked = true ∧ x.revokedAt = some now) := by
  constructor
  · intro hfind
    simp only [refreshRotateBody, hfind]
  · intro r hfind hval
    have hvalne : ¬ (r.is_valid now = true) := by simp [hval]
    constructor
    · simp only [refreshRotateBody, hfind]
      rw [if_neg hvalne]
    · intro x hx hfam
      obtain ⟨y, hy, hyx⟩ := List.mem_map.mp hx
      by_cases hf : y.tokenFamily = r.tokenFamily
      · rw [if_pos hf] at hyx
        rw [← hyx]
        exact ⟨rfl, rfl⟩
      · rw [if_neg hf] at hyx
        rw [← hyx] at hfam
        exact absurd hfam hf

def usedDemoRec : RefreshTokenRec :=
  { id := "rt-5", userId := "user-1", sessionId := "sess-db-id", tokenHash := "hash-used",
    tokenFamily := "fam-9", isRevoked := false, isUsed := true,
    expiresAt := 100000, usedAt := some 10, revokedAt := none }

def usedDemoDB : AuthDB :=
  { users := [], sessions := [], refreshTokens := [usedDemoRec], securityEvents := [] }

/-- Witness for C2's amended claim: presenting the hash of an already-used
record revokes its family and logs the critical event before rejection. -/
theorem reuse_signal_witness :
    refreshRotateBody 1000 usedDemoDB "hash-used" refreshDemoClaims refreshDemoFresh =
      ({ usedDemoDB with
          refreshTokens := revokeFamily 1000 usedDemoRec.tokenFamily usedDemoDB.refreshTokens,
          securityEvents := usedDemoDB.securityEvents ++ [tokenReuseEvent (refreshDemoClaims.sub.getD "")] },
        .error (.unauthorized "Invalid or expired refresh token")) :=
  ((reuse_signal_characterization 1000 usedDemoDB "hash-used" refreshDemoClaims
    refreshDemoFresh).2 usedDemoRec (by decide) (by decide)).1

theorem invalid_of_flags (r : RefreshTokenRec)
    (h : r.isUsed = true ∨ r.isRevoked = true) : ∀ t, r.is_valid t = false := by
  intro t
  rcases h with h | h <;> simp [RefreshTokenRec.is_valid, h]

theorem mono_exists_of_mem (post : List RefreshTokenRec) (r r' : RefreshTokenRec)
    (hmem : r' ∈ post) (hid : r'.id = r.id)
    (hu : r.isUsed = true → r'.isUsed = true)
    (hv : r.isRevoked = true → r'.isRevoked = true) :
    ∃ x, x ∈ post ∧ x.id = r.id ∧ (r.isUsed = true → x.isUsed = true) ∧
      (r.isRevoked = true → x.isRevoked = true) ∧
      ((r.isUsed = true ∨ r.isRevoked = true) → ∀ t, x.is_valid t = false) :=
  ⟨r', hmem, hid, hu, hv,
    fun h => invalid_of_flags r' (h.elim (fun a => Or.inl (hu a)) (fun a => Or.inr (hv a)))⟩

/-- C9: refresh-token invalidity is monotone — the rotation body, the
refresh endpoint and logout only ever raise `is_used`/`is_revoked`: every
pre-state record keeps a post-state row of the same id whose flags dominate
its own, and a record already used or revoked stays `is_valid() = false` at
every time after the operation. -/
theorem refresh_token_invalidity_monotone :
    (∀ (now : Int) (db : AuthDB) (tokenHash : String) (payload : JwtClaims)
        (fresh : FreshRefresh) (r : RefreshTokenRec), r ∈ db.refreshTokens →
      ∃ x, x ∈ (refreshRotateBody now db tokenHash payload fresh).1.refreshTokens ∧
        x.id = r.id ∧ (r.isUsed = true → x.isUsed = true) ∧
        (r.isRevoked = true → x.isRevoked = true) ∧
        ((r.isUsed = true ∨ r.isRevoked = true) → ∀ t, x.is_valid t = false)) ∧
    (∀ (now : Int) (db : AuthDB) (tok : PresentedRefresh) (fresh : FreshRefresh)
        (r : RefreshTokenRec), r ∈ db.refreshTokens →
      ∃ x, x ∈ (refresh_access_token now db tok fresh).1.refreshTokens ∧
        x.id = r.id ∧ (r.isUsed = true → x.isUsed = true) ∧
        (r.isRevoked = true → x.isRevoked = true)) ∧
    (∀ (now : Int) (db : AuthDB) (uid : String) (sid : Option String)
        (r : RefreshTokenRec), r ∈ db.refreshTokens →
      ∃ x, x ∈ (logout_user now db uid sid).refreshTokens ∧
        x.id = r.id ∧ (r.isUsed = true → x.isUsed = true) ∧
        (r.isRevoked = true → x.isRevoked = true) ∧
        ((r.isUsed = true ∨ r.isRevoked = true) → ∀ t, x.is_valid t = false)) := by
  refine ⟨?_, ?_, ?_⟩
  · intro now db tokenHash payload fresh r hr
    cases hfind : db.refreshTokens.find? (fun rr =>
        decide (rr.tokenHash = tokenHash ∧ rr.userId = payload.sub.getD "")) with
    | none =>
      simp only [refreshRotateBody, hfind]
      exact mono_exists_of_mem db.refreshTokens r r hr rfl (fun h => h) (fun h => h)
    | some rr =>
      by_cases hval : rr.is_valid now = true
      · cases hu : db.users.find? (fun u => decide (u.id = payload.sub.getD "")) with
        | none =>
          simp only [refreshRotateBody, hfind, hu, if_pos hval]
          exact mono_exists_of_mem db.refreshTokens r r hr rfl (fun h => h) (fun h => h)
        | some user =>
          cases hs : db.sessions.find? (fun sess =>
              decide (sess.id = payload.sessionId.getD "")) with
          | none =>
            simp only [refreshRotateBody, hfind, hu, hs, if_pos hval]
            exact mono_exists_of_mem db.refreshTokens r r hr rfl (fun h => h) (fun h => h)
          | some sess =>
            by_cases hact : (user.is_active now && sess.is_active now) = true
            · simp only [refreshRotateBody, hfind, hu, hs, if_pos hval, if_pos hact]
              refine mono_exists_of_mem _ r
                (if r.id = rr.id then { r with isUsed := true, usedAt := some now } else r)
                (List.mem_append_left _ (List.mem_map_of_mem _ hr)) ?_ ?_ ?_
              · by_cases h : r.id = rr.id <;> simp [h]
              · by_cases h : r.id = rr.id <;> simp [h]
              · by_cases h : r.id = rr.id <;> simp [h]
            · simp only [refreshRotateBody, hfind, hu, hs, if_pos hval, if_neg hact]
              exact mono_exists_of_mem db.refreshTokens r r hr rfl (fun h => h) (fun h => h)
      · simp only [refreshRotateBody, hfind, if_neg hval]
        refine mono_exists_of_mem _ r
          (if r.tokenFamily = rr.tokenFamily then
            { r with isRevoked := true, revokedAt := some now } else r)
          (List.mem_map_of_mem _ hr) ?_ ?_ ?_
        · by_cases h : r.tokenFamily = rr.tokenFamily <;> simp [h]
        · by_cases h : r.tokenFamily = rr.tokenFamily <;> simp [h]
        · by_cases h : r.tokenFamily = rr.tokenFamily <;> simp [h]
  · intro now db tok fresh r hr
    cases hv : verify_token tok.jose "refresh" now with
    | error e =>
      simp only [refresh_access_token, hv]
      exact ⟨r, hr, rfl, fun h => h, fun h => h⟩
    | ok payload =>
      simp only [refresh_access_token, hv]
      by_cases ht : (truthyOptStr payload.sub && truthyOptStr payload.sessionId &&
          truthyOptStr payload.familyId) = true
      · rw [if_pos ht,
          if_neg (by decide : ¬ (authModuleGlobals.contains "hashlib" = true))]
        exact ⟨r, hr, rfl, fun h => h, fun h => h⟩
      · rw [if_neg ht]
        exact ⟨r, hr, rfl, fun h => h, fun h => h⟩
  · intro now db uid sid r hr
    cases sid with
    | none => exact mono_exists_of_mem db.refreshTokens r r hr rfl (fun h => h) (fun h => h)
    | some sidv =>
      cases hf : db.sessions.find? (fun sess =>
          decide (sess.sessionId = sidv ∧ sess.userId = uid)) with
      | none =>
        simp only [logout_user, hf]
        exact mono_exists_of_mem db.refreshTokens r r hr rfl (fun h => h) (fun h => h)
      | some sess =>
        simp only [logout_user, hf]
        refine mono_exists_of_mem _ r
          (if r.sessionId = sess.id then
            { r with isRevoked := true, revokedAt := some now } else r)
          (List.mem_map_of_mem _ hr) ?_ ?_ ?_
        · by_cases h : r.sessionId = sess.id <;> simp [h]
        · by_cases h : r.sessionId = sess.id <;> simp [h]
        · by_cases h : r.sessionId = sess.id <;> simp [h]

/-- Witness for C9 at the reuse-revocation scenario: the used record keeps
its flags (and stays invalid) across family revocation. -/
theorem refresh_token_invalidity_monotone_witness :
    ∃ x, x ∈ (refreshRotateBody 1000 usedDemoDB "hash-used" refreshDemoClaims
        refreshDemoFresh).1.refreshTokens ∧
      x.id = usedDemoRec.id ∧ (usedDemoRec.isUsed = true → x.isUsed = true) ∧
      (usedDemoRec.isRevoked = true → x.isRevoked = true) ∧
      ((usedDemoRec.isUsed = true ∨ usedDemoRec.isRevoked = true) →
        ∀ t, x.is_valid t = false) :=
  refresh_token_invalidity_monotone.1 1000 usedDemoDB "hash-used" refreshDemoClaims
    refreshDemoFresh usedDemoRec (by decide)
